import Mathlib

/-!
Shallow embedding of `blocksub` (package blocksub of flashbots/go-utils):
the head-tracking orchestrator `BlockSub`, its reconciler loop
(`runListener`), the per-subscriber fan-out, the `Subscription`
lifecycle, the staleness check of `_pollNow` and the websocket
reconnect guard of `startWebsocket`.

Headers carry a uint64 block number and a hex-encoded hash; we model the
number as a `Nat` (all comparisons in the reconciler are plain uint64
comparisons, no arithmetic, so `Nat` is faithful there; the one place
where uint64 wraparound matters, `_pollNow`'s `header.Number.Uint64()-2`,
is modelled with an explicit `% 2^64`) and the hash (`Hash().Hex()`) as a
`String`.
-/

namespace BlockSubModel

/-- A chain header as the reconciler sees it: `Number.Uint64()` and
`Hash().Hex()` (blocksub.go uses exactly these two projections). -/
structure Header where
  number : Nat
  hash : String
  deriving DecidableEq, Repr

/-- The authoritative head state owned by the listener loop:
fields `CurrentHeader`, `CurrentBlockNumber`, `CurrentBlockHash` of
`BlockSub` (blocksub.go lines 49-51).  A fresh `BlockSub` has the Go
zero values: nil header, number 0, empty hash string. -/
structure HeadState where
  currentHeader : Option Header
  currentBlockNumber : Nat
  currentBlockHash : String
  deriving DecidableEq, Repr

/-- Head state of a freshly constructed `BlockSub` (Go zero values). -/
def initialHeadState : HeadState :=
  { currentHeader := none, currentBlockNumber := 0, currentBlockHash := "" }

/-- The acceptance test of `runListener` (blocksub.go line 151):
`header.Number.Uint64() >= s.CurrentBlockNumber && header.Hash().Hex() != s.CurrentBlockHash`. -/
def accepts (st : HeadState) (h : Header) : Bool :=
  decide (st.currentBlockNumber ≤ h.number) && decide (h.hash ≠ st.currentBlockHash)

/-- Head-state effect of one iteration of `runListener` on an incoming
header (blocksub.go lines 149-167, restricted to the `HeadState` fields):
on acceptance all three fields are overwritten with the header's values,
otherwise nothing changes.  There is no error path. -/
def processHeader (st : HeadState) (h : Header) : HeadState :=
  if accepts st h then
    { currentHeader := some h, currentBlockNumber := h.number, currentBlockHash := h.hash }
  else
    st

/-- Feed a sequence of headers through the listener loop. -/
def runHeaders (st : HeadState) (hs : List Header) : HeadState :=
  hs.foldl processHeader st

/-- The subsequence of headers the listener accepts when fed `hs` from
state `st`. -/
def acceptedSeq (st : HeadState) : List Header → List Header
  | [] => []
  | h :: rest =>
      if accepts st h then h :: acceptedSeq (processHeader st h) rest
      else acceptedSeq st rest

/-- Writing a header into the head state (the three assignments of
blocksub.go lines 152-154). -/
def setHead (h : Header) : HeadState :=
  { currentHeader := some h, currentBlockNumber := h.number, currentBlockHash := h.hash }

/-- One output subscription (subscription.go): the delivery channel `C`,
the cancellation scope and the atomic `stopped` flag.  `closed` counts
how many times `close(sub.C)` has executed (a Go channel may be closed
at most once; a second close panics), `cancelled` records whether
`sub.cancel()` has run, `ready` whether a receiver happens to be
immediately ready on `C` at the instant of a delivery attempt (an
environment fact, per fan-out round), and `received` the headers that
were actually handed to the subscriber. -/
structure SubState where
  stopped : Bool
  closed : Nat
  cancelled : Bool
  ready : Bool
  received : List Header
  deriving DecidableEq, Repr

/-- `NewSubscription` (subscription.go lines 50-57): fresh flag, open
unbuffered channel with no receiver yet, nothing delivered. -/
def NewSubscription : SubState :=
  { stopped := false, closed := 0, cancelled := false, ready := false, received := [] }

/-- `Subscription.Unsubscribe` (subscription.go lines 66-72): the atomic
`stopped.Swap(true)` makes only the first caller proceed to `cancel()`
and `close(sub.C)`; every later caller returns at once. -/
def SubState.unsubscribe (s : SubState) : SubState :=
  if s.stopped then s
  else { s with stopped := true, cancelled := true, closed := s.closed + 1 }

/-- Delivery attempt to one subscriber (blocksub.go lines 157-166):
a stopped subscriber is skipped (`continue`); otherwise a non-blocking
send `select { case sub.C <- header: default: }` delivers iff a receiver
is immediately ready, and drops the header for this subscriber
otherwise.  Total function: no branch waits. -/
def deliverOne (h : Header) (s : SubState) : SubState :=
  if s.stopped then s
  else if s.ready then { s with received := s.received ++ [h] }
  else s

/-- The fan-out loop over `s.subscriptions` for one accepted header. -/
def fanOut (h : Header) (subs : List SubState) : List SubState :=
  subs.map (deliverOne h)

/-- One full iteration of `runListener` on an incoming header
(blocksub.go lines 149-167): on acceptance the head state is rewritten
and the header fanned out to the registered subscriptions; on rejection
the header is dropped and neither the head state nor any subscriber is
touched. -/
def listenerStep (st : HeadState) (subs : List SubState) (h : Header) :
    HeadState × List SubState :=
  if accepts st h then (setHead h, fanOut h subs)
  else (st, subs)

/-- Orchestrator state (blocksub.go `BlockSub`): the atomic `stopped`
flag, the root-context `cancel` (releases the source connections and
ends the background tasks), the subscription registry and the two
endpoint URIs. -/
structure BlockSubState where
  stopped : Bool
  cancelled : Bool
  subscriptions : List SubState
  httpURI : String
  wsURI : String
  deriving DecidableEq, Repr

/-- `NewBlockSubWithTimeout` (blocksub.go lines 62-75): idle instance,
`stopped` at its zero value `false`, empty registry. -/
def newBlockSub (httpURI wsURI : String) : BlockSubState :=
  { stopped := false, cancelled := false, subscriptions := [], httpURI := httpURI,
    wsURI := wsURI }

/-- `BlockSub.IsRunning` (blocksub.go lines 77-79): `!s.stopped.Load()`. -/
def BlockSubState.isRunning (s : BlockSubState) : Bool := !s.stopped

/-- `BlockSub.Subscribe` (blocksub.go lines 82-91): build a fresh
subscription; if the orchestrator is stopped, unsubscribe it on the spot
(closing its channel) and do NOT register it; otherwise register it.
Returns the new orchestrator state and the subscription handed back to
the caller. -/
def BlockSubState.subscribe (s : BlockSubState) : BlockSubState × SubState :=
  let sub := NewSubscription
  if s.stopped then (s, sub.unsubscribe)
  else ({ s with subscriptions := s.subscriptions ++ [sub] }, sub)

/-- `BlockSub.Stop` (blocksub.go lines 129-139): `stopped.Swap(true)`
makes the second and later calls return immediately; the first call
unsubscribes every registered subscription and cancels the root
context. -/
def BlockSubState.stop (s : BlockSubState) : BlockSubState :=
  if s.stopped then s
  else
    { s with
      stopped := true
      subscriptions := s.subscriptions.map SubState.unsubscribe
      cancelled := true }

/-- Outcomes of the external calls `Start` can make, so that the dial
and poll branches of blocksub.go lines 94-126 can be followed without a
network. -/
structure StartEnv where
  wsDialOk : Bool
  wsSubOk : Bool
  httpDialOk : Bool
  pollOk : Bool
  deriving DecidableEq, Repr

/-- The errors `Start` can return: `ErrStopped` (blocksub.go line 17)
or an error bubbled up from a websocket dial/subscribe, an HTTP dial,
or the initial poll. -/
inductive StartError where
  | errStopped
  | wsError
  | httpError
  | pollError
  deriving DecidableEq, Repr

/-- Observable side effects of one `Start` call: which background tasks
were spawned and how many dial attempts were made on each endpoint. -/
structure StartEffects where
  listenerSpawned : Bool
  pollerSpawned : Bool
  wsDials : Nat
  httpDials : Nat
  deriving DecidableEq, Repr

def noStartEffects : StartEffects :=
  { listenerSpawned := false, pollerSpawned := false, wsDials := 0, httpDials := 0 }

/-- The HTTP half of `Start` (blocksub.go lines 108-123): dial the HTTP
endpoint when configured, verify polling works once, then spawn the
poller. -/
def startHttpPart (s : BlockSubState) (env : StartEnv) (eff : StartEffects) :
    BlockSubState × Option StartError × StartEffects :=
  if s.httpURI ≠ "" then
    let eff := { eff with httpDials := 1 }
    if !env.httpDialOk then (s, some .httpError, eff)
    else if !env.pollOk then (s, some .pollError, eff)
    else (s, none, { eff with pollerSpawned := true })
  else (s, none, eff)

/-- `BlockSub.Start` (blocksub.go lines 94-126).  When `stopped` is
already set it returns `ErrStopped` before spawning the listener,
dialing either endpoint or touching any field.  Otherwise it spawns the
listener, establishes the websocket subscription when configured
(`startWebsocket(false)`, one dial attempt, errors returned), then runs
the HTTP half. -/
def BlockSubState.start (s : BlockSubState) (env : StartEnv) :
    BlockSubState × Option StartError × StartEffects :=
  if s.stopped then (s, some .errStopped, noStartEffects)
  else
    let eff := { noStartEffects with listenerSpawned := true }
    if s.wsURI ≠ "" then
      let eff := { eff with wsDials := 1 }
      if !env.wsDialOk then (s, some .wsError, eff)
      else if !env.wsSubOk then (s, some .wsError, eff)
      else startHttpPart s env eff
    else startHttpPart s env eff

/-- 2^64: Go's `uint64` arithmetic in `_pollNow` is modelled with an
explicit modulus. -/
def UINT64_MOD : Nat := 2 ^ 64

/-- Go uint64 subtraction `a - b` for `a, b < 2^64` (wraps around on
underflow). -/
def sub64 (a b : Nat) : Nat := (a + UINT64_MOD - b) % UINT64_MOD

/-- The staleness condition of `_pollNow` (blocksub.go line 200):
`s.latestWsHeader != nil && s.latestWsHeader.Number.Uint64() < header.Number.Uint64()-2`,
where the subtraction is uint64 subtraction.  When it holds, the poll
loop fires `go s.startWebsocket(true)`. -/
def pollStaleCheck (latestWsHeader : Option Header) (polled : Header) : Bool :=
  match latestWsHeader with
  | none => false
  | some ws => decide (ws.number < sub64 polled.number 2)

/-! ### Interleaving model of concurrent `Unsubscribe` calls

`Subscription.Unsubscribe` is two steps per calling task: the atomic
`stopped.Swap(true)` (one indivisible step, courtesy of
`go.uber.org/atomic`), and — only for the task whose swap returned
`false` — the body `cancel(); close(sub.C)`.  The calling tasks are
symmetric, so a global state needs only the shared flag, the effect
counters and how many tasks sit at each program point; a schedule is an
arbitrary finite list of steps, each naming which kind of task moves. -/

/-- Global state of N tasks racing through `Unsubscribe` on one
subscription: `pending` tasks have not yet executed their swap,
`winners` got `false` from the swap but have not yet closed, `losers`
returned immediately, `doneW` finished the close.  `closed` and
`cancels` count executions of `close(sub.C)` and `sub.cancel()`. -/
structure UnsubState where
  stopped : Bool
  closed : Nat
  cancels : Nat
  pending : Nat
  winners : Nat
  losers : Nat
  doneW : Nat
  deriving DecidableEq, Repr

/-- A scheduler step: advance one task sitting before its swap, or one
winner performing `cancel(); close(C)`. -/
inductive UAct where
  | swap
  | close
  deriving DecidableEq, Repr

/-- Small-step semantics of the race.  A step whose precondition fails
(no task at that program point) is a stutter. -/
def ustep (s : UnsubState) : UAct → UnsubState
  | .swap =>
      if s.pending = 0 then s
      else if s.stopped then
        { s with pending := s.pending - 1, losers := s.losers + 1 }
      else
        { s with pending := s.pending - 1, winners := s.winners + 1, stopped := true }
  | .close =>
      if s.winners = 0 then s
      else
        { s with
          winners := s.winners - 1
          doneW := s.doneW + 1
          closed := s.closed + 1
          cancels := s.cancels + 1 }

/-- Run a schedule. -/
def urun (s : UnsubState) (acts : List UAct) : UnsubState := acts.foldl ustep s

/-- N tasks about to call `Unsubscribe` on a fresh subscription. -/
def initUnsub (n : Nat) : UnsubState :=
  { stopped := false, closed := 0, cancels := 0, pending := n, winners := 0, losers := 0,
    doneW := 0 }

/-- Inductive invariant of the `Unsubscribe` race: at most one task ever
wins the swap, the flag is set exactly when a winner exists, the close
and cancel counters equal the number of completed winners, and a loser
can only exist once the flag is set. -/
def UnsubInv (s : UnsubState) : Prop :=
  s.winners + s.doneW ≤ 1
  ∧ (s.stopped = true ↔ s.winners + s.doneW = 1)
  ∧ s.closed = s.doneW
  ∧ s.cancels = s.doneW
  ∧ (0 < s.losers → s.stopped = true)

/-- Number of tasks in the `Unsubscribe` race (conserved by every step). -/
def utotal (s : UnsubState) : Nat := s.pending + s.winners + s.losers + s.doneW

/-! ### Interleaving model of `startWebsocket`'s reconnect guard

`startWebsocket` (blocksub.go lines 210-235): a caller whose
`wsIsConnecting.Swap(true)` returns `true` (a follower) locks the
condition variable's mutex, calls `Wait()` once — Go's `sync.Cond.Wait`
returns only after a `Broadcast`/`Signal`, never spuriously — and
returns.  The caller whose swap returns `false` (the leader) performs
the physical connection attempt(s) and, via `defer`, first stores
`false` into `wsIsConnecting` and then broadcasts.  A follower's swap
and its `Wait()` are two distinct steps with no lock tying them to the
flag, so the broadcast can fire between them.  The model tracks one
in-flight leader and a list of follower program points. -/

/-- Program points of one follower calling `startWebsocket` while a
reconnect is in flight: before its swap, after the swap but before
`Wait()`, parked in `Wait()`, and returned. -/
inductive FollowerPC where
  | start
  | swapped
  | waiting
  | doneF
  | leading
  deriving DecidableEq, Repr

/-- Phases of the in-flight leader's deferred epilogue:
still connecting, after `wsIsConnecting.Store(false)`, and after
`Broadcast()`. -/
inductive LeaderPhase where
  | running
  | stored
  | finished
  deriving DecidableEq, Repr

/-- Global state of the reconnect guard: the atomic `wsIsConnecting`
flag, how many physical connection attempts have been started, the
in-flight leader's phase and each follower's program point. -/
structure WsGuardState where
  isConnecting : Bool
  attempts : Nat
  leader : LeaderPhase
  followers : List FollowerPC
  deriving DecidableEq, Repr

/-- A scheduler step for the reconnect guard. -/
inductive WAct where
  | swapF (i : Nat)
  | waitF (i : Nat)
  | leaderStore
  | leaderBroadcast
  deriving DecidableEq, Repr

/-- One follower program point after a `Broadcast`: only a follower
already parked in `Wait()` wakes up. -/
def wakeF (pc : FollowerPC) : FollowerPC :=
  match pc with
  | .waiting => .doneF
  | pc => pc

/-- Small-step semantics of the reconnect guard.  `swapF i` runs
follower `i`'s `wsIsConnecting.Swap(true)`: if the flag was set the
follower proceeds towards `Wait()`, otherwise it becomes a new leader
and starts its own connection attempt.  `waitF i` parks a swapped
follower in `Wait()`.  `leaderStore` and `leaderBroadcast` are the two
halves of the leader's deferred epilogue; the broadcast wakes exactly
the followers already parked in `Wait()`.  Steps whose preconditions
fail are stutters. -/
def wstep (s : WsGuardState) : WAct → WsGuardState
  | .swapF i =>
      match s.followers.get? i with
      | some .start =>
          if s.isConnecting then
            { s with followers := s.followers.set i .swapped }
          else
            { s with
              isConnecting := true
              attempts := s.attempts + 1
              followers := s.followers.set i .leading }
      | _ => s
  | .waitF i =>
      match s.followers.get? i with
      | some .swapped => { s with followers := s.followers.set i .waiting }
      | _ => s
  | .leaderStore =>
      match s.leader with
      | .running => { s with leader := .stored, isConnecting := false }
      | _ => s
  | .leaderBroadcast =>
      match s.leader with
      | .stored => { s with leader := .finished, followers := s.followers.map wakeF }
      | _ => s

/-- Run a schedule through the reconnect guard. -/
def wrun (s : WsGuardState) (acts : List WAct) : WsGuardState := acts.foldl wstep s

/-- A reconnect attempt in flight (the leader is connecting,
`wsIsConnecting` is set, its attempt is counted) and `n` fresh callers
about to enter `startWebsocket`. -/
def initWsGuard (n : Nat) : WsGuardState :=
  { isConnecting := true, attempts := 1, leader := .running,
    followers := List.replicate n .start }

/-- The schedule exhibiting the missed wakeup: the single follower runs
its `wsIsConnecting.Swap(true)` and observes `true`; the in-flight
leader then finishes (stores `false`, broadcasts — the wait set is still
empty); only afterwards does the follower reach `Wait()`. -/
def missedWakeupTrace : List WAct :=
  [WAct.swapF 0, WAct.leaderStore, WAct.leaderBroadcast, WAct.waitF 0]

end BlockSubModel

namespace BlockSubModel

theorem accepts_iff (st : HeadState) (h : Header) :
    accepts st h = true ↔ st.currentBlockNumber ≤ h.number ∧ h.hash ≠ st.currentBlockHash := by
  simp [accepts]

theorem processHeader_of_accepts {st : HeadState} {h : Header} (hacc : accepts st h = true) :
    processHeader st h =
      { currentHeader := some h, currentBlockNumber := h.number, currentBlockHash := h.hash } := by
  simp [processHeader, hacc]

theorem processHeader_of_not_accepts {st : HeadState} {h : Header}
    (hacc : accepts st h = false) : processHeader st h = st := by
  simp [processHeader, hacc]

/-- **C1.** The listener accepts a header `H` iff
`H.number >= currentNumber` and `H.hash != currentHash`; on acceptance it
overwrites `CurrentHeader`, `CurrentBlockNumber`, `CurrentBlockHash` with
`H`'s values, and on rejection it leaves the head state unchanged (the
loop has no error path: `processHeader` is total).  Concretely, from the
initial state, feeding (100, "0xX") then (100, "0xY") accepts both,
while feeding (100, "0xY") then (99, "0xX") rejects the second. -/
theorem c1_reconciler_acceptance (st : HeadState) (h : Header) :
    (accepts st h = true ↔ st.currentBlockNumber ≤ h.number ∧ h.hash ≠ st.currentBlockHash)
    ∧ (accepts st h = true →
        processHeader st h =
          { currentHeader := some h, currentBlockNumber := h.number, currentBlockHash := h.hash })
    ∧ (accepts st h = false → processHeader st h = st)
    ∧ (∀ subs : List SubState, accepts st h = true →
        listenerStep st subs h = (setHead h, fanOut h subs))
    ∧ (∀ subs : List SubState, accepts st h = false →
        listenerStep st subs h = (st, subs))
    ∧ (let a := Header.mk 100 "0xX"; let b := Header.mk 100 "0xY";
       accepts initialHeadState a = true
       ∧ accepts (processHeader initialHeadState a) b = true)
    ∧ (let a := Header.mk 99 "0xX"; let b := Header.mk 100 "0xY";
       accepts initialHeadState b = true
       ∧ accepts (processHeader initialHeadState b) a = false) := by
  refine ⟨accepts_iff st h, fun hacc => processHeader_of_accepts hacc,
    fun hacc => processHeader_of_not_accepts hacc,
    fun subs hacc => by simp [listenerStep, hacc],
    fun subs hacc => by simp [listenerStep, hacc], by decide, by decide⟩

/-- Witness for C1: instantiated at the initial state and header (100, "0xX"),
whose acceptance hypothesis holds by computation. -/
theorem c1_reconciler_acceptance_witness :
    accepts initialHeadState (Header.mk 100 "0xX") = true
    ∧ processHeader initialHeadState (Header.mk 100 "0xX") =
        { currentHeader := some (Header.mk 100 "0xX"), currentBlockNumber := 100,
          currentBlockHash := "0xX" } :=
  ⟨by decide, (c1_reconciler_acceptance initialHeadState (Header.mk 100 "0xX")).2.1 (by decide)⟩

theorem runHeaders_nil (st : HeadState) : runHeaders st [] = st := rfl

theorem runHeaders_cons (st : HeadState) (h : Header) (hs : List Header) :
    runHeaders st (h :: hs) = runHeaders (processHeader st h) hs := rfl

theorem acceptedSeq_head_accepts :
    ∀ (hs : List Header) (st : HeadState) (h' : Header),
      (acceptedSeq st hs).head? = some h' → accepts st h' = true := by
  intro hs
  induction hs with
  | nil => intro st h' hh; simp [acceptedSeq] at hh
  | cons h rest ih =>
      intro st h' hh
      by_cases hacc : accepts st h = true
      · simp [acceptedSeq, hacc] at hh
        subst hh; exact hacc
      · rw [Bool.not_eq_true] at hacc
        simp only [acceptedSeq, hacc, Bool.false_eq_true, if_false] at hh
        exact ih st h' hh

theorem currentBlockNumber_mono :
    ∀ (hs : List Header) (st : HeadState),
      st.currentBlockNumber ≤ (runHeaders st hs).currentBlockNumber := by
  intro hs
  induction hs with
  | nil => intro st; exact le_rfl
  | cons h rest ih =>
      intro st
      rw [runHeaders_cons]
      refine le_trans ?_ (ih (processHeader st h))
      by_cases hacc : accepts st h = true
      · rw [processHeader_of_accepts hacc]
        exact ((accepts_iff st h).mp hacc).1
      · rw [Bool.not_eq_true] at hacc
        rw [processHeader_of_not_accepts hacc]

theorem acceptedSeq_chain :
    ∀ (hs : List Header) (st : HeadState),
      List.Chain' (fun a b => a.number ≤ b.number ∧ (a.number, a.hash) ≠ (b.number, b.hash))
        (acceptedSeq st hs) := by
  intro hs
  induction hs with
  | nil => intro st; simp [acceptedSeq]
  | cons h rest ih =>
      intro st
      by_cases hacc : accepts st h = true
      · simp only [acceptedSeq, hacc, if_true]
        rw [List.chain'_cons']
        refine ⟨?_, ih (processHeader st h)⟩
        intro y hy
        have hya := acceptedSeq_head_accepts rest (processHeader st h) y hy
        rw [processHeader_of_accepts hacc] at hya
        have := (accepts_iff _ y).mp hya
        simp only at this
        refine ⟨this.1, ?_⟩
        intro hpair
        exact this.2 (congrArg Prod.snd hpair).symm
      · rw [Bool.not_eq_true] at hacc
        simp only [acceptedSeq, hacc, Bool.false_eq_true, if_false]
        exact ih st

theorem runHeaders_eq_foldl_accepted :
    ∀ (hs : List Header) (st : HeadState),
      runHeaders st hs = (acceptedSeq st hs).foldl (fun _ a => setHead a) st := by
  intro hs
  induction hs with
  | nil => intro st; rfl
  | cons h rest ih =>
      intro st
      by_cases hacc : accepts st h = true
      · simp only [acceptedSeq, hacc, if_true, List.foldl_cons, runHeaders_cons]
        rw [ih (processHeader st h), processHeader_of_accepts hacc]
        rfl
      · rw [Bool.not_eq_true] at hacc
        simp only [acceptedSeq, hacc, Bool.false_eq_true, if_false, runHeaders_cons,
          processHeader_of_not_accepts hacc]
        exact ih st

theorem foldl_setHead_getLast :
    ∀ (l : List Header) (st : HeadState) (a : Header),
      l.getLast? = some a → l.foldl (fun _ x => setHead x) st = setHead a := by
  intro l
  induction l with
  | nil => intro st a h; simp at h
  | cons x t ih =>
      intro st a h
      cases t with
      | nil => simp at h; subst h; rfl
      | cons y t' =>
          rw [List.getLast?_cons_cons] at h
          simp only [List.foldl_cons]
          exact ih (setHead x) a h

theorem acceptedSeq_number_le_final :
    ∀ (hs : List Header) (st : HeadState) (a : Header),
      a ∈ acceptedSeq st hs → a.number ≤ (runHeaders st hs).currentBlockNumber := by
  intro hs
  induction hs with
  | nil => intro st a ha; simp [acceptedSeq] at ha
  | cons h rest ih =>
      intro st a ha
      by_cases hacc : accepts st h = true
      · simp only [acceptedSeq, hacc, if_true, List.mem_cons] at ha
        rw [runHeaders_cons]
        rcases ha with rfl | ha
        · have : (processHeader st a).currentBlockNumber = a.number := by
            rw [processHeader_of_accepts hacc]
          rw [← this]
          exact currentBlockNumber_mono rest (processHeader st a)
        · exact ih (processHeader st h) a ha
      · rw [Bool.not_eq_true] at hacc
        simp only [acceptedSeq, hacc, Bool.false_eq_true, if_false] at ha
        rw [runHeaders_cons, processHeader_of_not_accepts hacc]
        exact ih st a ha

/-- **C2.** For any sequence of headers fed from the initial head state:
the accepted subsequence has non-decreasing numbers and no two
consecutive accepted headers share the `(number, hash)` pair; the final
head state equals the most recently accepted header's fields (or the
initial state when nothing was accepted); and `CurrentBlockNumber`
never ends below any accepted header's number. -/
theorem c2_monotonic_acceptance (hs : List Header) :
    List.Chain' (fun a b => a.number ≤ b.number ∧ (a.number, a.hash) ≠ (b.number, b.hash))
      (acceptedSeq initialHeadState hs)
    ∧ (match (acceptedSeq initialHeadState hs).getLast? with
       | none => runHeaders initialHeadState hs = initialHeadState
       | some a => runHeaders initialHeadState hs = setHead a)
    ∧ (∀ a ∈ acceptedSeq initialHeadState hs,
        a.number ≤ (runHeaders initialHeadState hs).currentBlockNumber) := by
  refine ⟨acceptedSeq_chain hs initialHeadState, ?_, ?_⟩
  · cases hlast : (acceptedSeq initialHeadState hs).getLast? with
    | none =>
        simp only
        rw [runHeaders_eq_foldl_accepted hs initialHeadState,
          List.getLast?_eq_none_iff.mp hlast]
        rfl
    | some a =>
        simp only
        rw [runHeaders_eq_foldl_accepted hs initialHeadState]
        exact foldl_setHead_getLast _ initialHeadState a hlast
  · intro a ha
    exact acceptedSeq_number_le_final hs initialHeadState a ha

/-- Witness for C2: feeding (100, "0xX"), (100, "0xY"), (99, "0xZ") from the
initial state, the accepted header (100, "0xX") is below the final
`CurrentBlockNumber`. -/
theorem c2_monotonic_acceptance_witness :
    (Header.mk 100 "0xX").number ≤
      (runHeaders initialHeadState
        [Header.mk 100 "0xX", Header.mk 100 "0xY", Header.mk 99 "0xZ"]).currentBlockNumber :=
  (c2_monotonic_acceptance
    [Header.mk 100 "0xX", Header.mk 100 "0xY", Header.mk 99 "0xZ"]).2.2
    (Header.mk 100 "0xX") (by decide)

/-- **C3.** Fan-out of an accepted header is non-blocking and
per-subscriber: the loop always completes (one total delivery attempt
per subscriber, same length), the outcome for subscriber `i` is a
function of subscriber `i`'s state alone (so a stalled subscriber
cannot affect the others or the listener's progress), a stopped
subscriber is skipped, a subscriber with no ready receiver has the
header dropped (state unchanged), and a ready subscriber receives it. -/
theorem c3_nonblocking_fanout (h : Header) (subs : List SubState) :
    (fanOut h subs).length = subs.length
    ∧ (∀ i : Nat, (fanOut h subs).get? i = (subs.get? i).map (deliverOne h))
    ∧ (∀ s : SubState, s.stopped = true → deliverOne h s = s)
    ∧ (∀ s : SubState, s.stopped = false → s.ready = false → deliverOne h s = s)
    ∧ (∀ s : SubState, s.stopped = false → s.ready = true →
        deliverOne h s = { s with received := s.received ++ [h] }) := by
  refine ⟨by simp [fanOut], ?_, ?_, ?_, ?_⟩
  · intro i; simp [fanOut]
  · intro s hs; simp [deliverOne, hs]
  · intro s hs hr; simp [deliverOne, hs, hr]
  · intro s hs hr; simp [deliverOne, hs, hr]

/-- Witness for C3: a stopped subscriber is untouched by a delivery. -/
theorem c3_nonblocking_fanout_witness :
    deliverOne (Header.mk 5 "0xA")
        { stopped := true, closed := 1, cancelled := true, ready := true, received := [] }
      = { stopped := true, closed := 1, cancelled := true, ready := true, received := [] } :=
  (c3_nonblocking_fanout (Header.mk 5 "0xA") []).2.2.1
    { stopped := true, closed := 1, cancelled := true, ready := true, received := [] } (by decide)

/-- **C5.** `Subscribe` on a stopped orchestrator returns a subscription
that is already closed — channel closed (exactly once), nothing ever
delivered (`received = []`), and it is never registered, so no fan-out
round can reach it; the orchestrator state is unchanged and no error is
surfaced (the function is total and returns normally). -/
theorem c5_post_stop_subscribe (s : BlockSubState) (hstop : s.stopped = true) :
    s.subscribe = (s,
      { stopped := true, closed := 1, cancelled := true, ready := false, received := [] })
    ∧ s.subscribe.2.stopped = true
    ∧ s.subscribe.2.closed = 1
    ∧ s.subscribe.2.received = []
    ∧ s.subscribe.1 = s
    ∧ (∀ h, deliverOne h s.subscribe.2 = s.subscribe.2) := by
  have hmain : s.subscribe = (s,
      { stopped := true, closed := 1, cancelled := true, ready := false, received := [] }) := by
    simp [BlockSubState.subscribe, NewSubscription, SubState.unsubscribe, hstop]
  refine ⟨hmain, ?_, ?_, ?_, ?_, ?_⟩
  · rw [hmain]
  · rw [hmain]
  · rw [hmain]
  · rw [hmain]
  · intro h; rw [hmain]; simp [deliverOne]

/-- Witness for C5: a stopped orchestrator (built by `Stop` on a fresh
one) hands back a subscription with a closed channel and an empty
delivery log. -/
theorem c5_post_stop_subscribe_witness :
    ((newBlockSub "http://x" "ws://y").stop).subscribe.2.closed = 1
    ∧ ((newBlockSub "http://x" "ws://y").stop).subscribe.2.received = [] :=
  let s := (newBlockSub "http://x" "ws://y").stop
  let c5 := c5_post_stop_subscribe s (by decide)
  ⟨c5.2.2.1, c5.2.2.2.1⟩

/-- **C6.** `Stop` is idempotent: the second call is the identity, so two
calls leave the same state as one; the first call on a running
orchestrator cancels the root context (ending the background tasks and
releasing the source connections) and unsubscribes every registered
subscription — closing each live one's channel exactly once (its close
count goes from 0 to 1) and leaving already-stopped ones untouched. -/
theorem c6_stop_idempotent (s : BlockSubState) :
    s.stop.stop = s.stop
    ∧ s.stop.stopped = true
    ∧ (s.stopped = true → s.stop = s)
    ∧ (s.stopped = false →
        s.stop.cancelled = true
        ∧ s.stop.subscriptions = s.subscriptions.map SubState.unsubscribe)
    ∧ (∀ sub : SubState, sub.stopped = false → sub.unsubscribe.closed = sub.closed + 1
        ∧ sub.unsubscribe.stopped = true ∧ sub.unsubscribe.cancelled = true)
    ∧ (∀ sub : SubState, sub.stopped = true → sub.unsubscribe = sub) := by
  refine ⟨?_, ?_, ?_, ?_, ?_, ?_⟩
  · by_cases hs : s.stopped = true <;> simp [BlockSubState.stop, hs]
  · by_cases hs : s.stopped = true <;> simp [BlockSubState.stop, hs]
  · intro hs; simp [BlockSubState.stop, hs]
  · intro hs; simp [BlockSubState.stop, hs]
  · intro sub hsub; simp [SubState.unsubscribe, hsub]
  · intro sub hsub; simp [SubState.unsubscribe, hsub]

/-- Witness for C6: stopping a fresh orchestrator and the behaviour of
`Unsubscribe` on a fresh (live) subscription. -/
theorem c6_stop_idempotent_witness :
    NewSubscription.unsubscribe.closed = NewSubscription.closed + 1
    ∧ NewSubscription.unsubscribe.stopped = true
    ∧ NewSubscription.unsubscribe.cancelled = true :=
  (c6_stop_idempotent (newBlockSub "http://x" "ws://y")).2.2.2.2.1 NewSubscription (by decide)

/-- **C9 counterexample.** On a freshly constructed `BlockSub`, before
`Start()` was ever called, `IsRunning()` already returns `true` — not
`false` as the claim states — because `IsRunning` is just
`!s.stopped.Load()` and the `stopped` flag starts out `false`. -/
theorem c9_counterexample :
    (newBlockSub "http://x" "ws://y").isRunning = true
    ∧ ¬ ((newBlockSub "http://x" "ws://y").isRunning = false) := by
  decide

/-- **C9 (amended).** `IsRunning` reflects only the `stopped` flag: it
returns `true` from construction — even before `Start()` — `Start`
leaves it unchanged (whatever the environment does), and after `Stop()`
it returns `false`. -/
theorem c9_isrunning_amended (huri wuri : String) (s : BlockSubState) (env : StartEnv) :
    (newBlockSub huri wuri).isRunning = true
    ∧ (s.start env).1.isRunning = s.isRunning
    ∧ s.stop.isRunning = false
    ∧ (s.isRunning = true ↔ s.stopped = false) := by
  refine ⟨rfl, ?_, ?_, ?_⟩
  · have hfst : (s.start env).1 = s := by
      unfold BlockSubState.start startHttpPart
      repeat' split
      all_goals rfl
    rw [hfst]
  · by_cases hs : s.stopped = true <;>
      simp [BlockSubState.stop, BlockSubState.isRunning, hs]
  · simp [BlockSubState.isRunning]

/-- **C10.** Calling `Start` on an already-stopped `BlockSub` returns
`ErrStopped` immediately: no listener or poller task is spawned, neither
endpoint is dialed, and the state is returned unmodified — whatever the
network environment would have answered. -/
theorem c10_start_when_stopped (s : BlockSubState) (env : StartEnv) (hstop : s.stopped = true) :
    s.start env = (s, some .errStopped, noStartEffects)
    ∧ (s.start env).2.2.listenerSpawned = false
    ∧ (s.start env).2.2.pollerSpawned = false
    ∧ (s.start env).2.2.wsDials = 0
    ∧ (s.start env).2.2.httpDials = 0
    ∧ (s.start env).1 = s := by
  have hmain : s.start env = (s, some .errStopped, noStartEffects) := by
    simp [BlockSubState.start, hstop]
  refine ⟨hmain, ?_, ?_, ?_, ?_, ?_⟩ <;> rw [hmain] <;> rfl

theorem ustep_inv {s : UnsubState} (hinv : UnsubInv s) (a : UAct) : UnsubInv (ustep s a) := by
  unfold UnsubInv at *
  obtain ⟨h1, h2, h3, h4, h5⟩ := hinv
  cases a with
  | swap =>
      unfold ustep
      by_cases hp : s.pending = 0
      · rw [if_pos hp]; exact ⟨h1, h2, h3, h4, h5⟩
      · rw [if_neg hp]
        by_cases hs : s.stopped = true
        · rw [if_pos hs]
          exact ⟨h1, h2, h3, h4, fun _ => hs⟩
        · rw [if_neg hs]
          have hsum : s.winners + s.doneW = 0 := by
            by_contra hne
            exact hs (h2.mpr (by omega))
          refine ⟨by simp; omega, by simp; omega, h3, h4, fun _ => rfl⟩
  | close =>
      unfold ustep
      by_cases hw : s.winners = 0
      · rw [if_pos hw]; exact ⟨h1, h2, h3, h4, h5⟩
      · rw [if_neg hw]
        have hst : s.stopped = true := h2.mpr (by omega)
        refine ⟨by simp; omega, by simp [hst]; omega, by simp; omega, by simp; omega,
          fun _ => hst⟩

theorem urun_inv (acts : List UAct) :
    ∀ s : UnsubState, UnsubInv s → UnsubInv (urun s acts) := by
  induction acts with
  | nil => intro s h; exact h
  | cons a rest ih =>
      intro s h
      exact ih (ustep s a) (ustep_inv h a)

theorem ustep_total (s : UnsubState) (a : UAct) : utotal (ustep s a) = utotal s := by
  unfold utotal ustep
  cases a <;> split_ifs <;> simp_all <;> omega

theorem urun_total (acts : List UAct) :
    ∀ s : UnsubState, utotal (urun s acts) = utotal s := by
  induction acts with
  | nil => intro s; rfl
  | cons a rest ih =>
      intro s
      calc utotal (urun (ustep s a) rest) = utotal (ustep s a) := ih (ustep s a)
        _ = utotal s := ustep_total s a

theorem initUnsub_inv (n : Nat) : UnsubInv (initUnsub n) := by
  unfold UnsubInv initUnsub
  simp

/-- **C4.** Under every interleaving of N tasks calling `Unsubscribe` on
one fresh subscription, the channel-close and scope-cancel counters
never exceed 1 (no double close, hence no panic); a task whose swap sees
the flag already set changes nothing (2nd..Nth calls are side-effect
free); once every task has finished, the channel was closed exactly once
and the scope cancelled exactly once; and sequentially, a second
`Unsubscribe` is the identity. -/
theorem c4_idempotent_unsubscribe (n : Nat) (acts : List UAct) :
    (urun (initUnsub n) acts).closed ≤ 1
    ∧ (urun (initUnsub n) acts).cancels ≤ 1
    ∧ (∀ s : UnsubState, s.stopped = true →
        (ustep s .swap).closed = s.closed ∧ (ustep s .swap).cancels = s.cancels
        ∧ (ustep s .swap).stopped = true ∧ (ustep s .swap).winners = s.winners)
    ∧ (1 ≤ n → (urun (initUnsub n) acts).pending = 0 →
        (urun (initUnsub n) acts).winners = 0 →
        (urun (initUnsub n) acts).closed = 1 ∧ (urun (initUnsub n) acts).cancels = 1)
    ∧ (∀ sub : SubState, sub.unsubscribe.unsubscribe = sub.unsubscribe) := by
  have hinv := urun_inv acts (initUnsub n) (initUnsub_inv n)
  have htot := urun_total acts (initUnsub n)
  obtain ⟨h1, h2, h3, h4, h5⟩ := hinv
  refine ⟨by omega, by omega, ?_, ?_, ?_⟩
  · intro s hs
    by_cases hp : s.pending = 0 <;> simp [ustep, hp, hs]
  · intro hn hpend hwin
    have htot' : (urun (initUnsub n) acts).pending + (urun (initUnsub n) acts).winners
        + (urun (initUnsub n) acts).losers + (urun (initUnsub n) acts).doneW = n := by
      simpa [utotal, initUnsub] using htot
    have hd : (urun (initUnsub n) acts).doneW = 1 := by
      by_contra hne
      have hl : 0 < (urun (initUnsub n) acts).losers := by omega
      have := h2.mp (h5 hl)
      omega
    omega
  · intro sub
    by_cases hsub : sub.stopped = true <;> simp [SubState.unsubscribe, hsub]

/-- Witness for C4: two tasks race, one wins the swap and closes, the
other loses; afterwards exactly one close and one cancel happened. -/
theorem c4_idempotent_unsubscribe_witness :
    (urun (initUnsub 2) [UAct.swap, UAct.swap, UAct.close]).closed = 1
    ∧ (urun (initUnsub 2) [UAct.swap, UAct.swap, UAct.close]).cancels = 1 :=
  (c4_idempotent_unsubscribe 2 [UAct.swap, UAct.swap, UAct.close]).2.2.2.1
    (by decide) (by decide) (by decide)

/-- **C7 counterexample.** After a poll that fetched block number 1 with
a previously observed push header at number 0, the code triggers a
forced reconnect (`0 < 1-2` holds in uint64 arithmetic because the
subtraction wraps to `2^64 - 1`), although the push header is only 1
behind — not more than 2 — so the claim's "iff P − W > 2" is false. -/
theorem c7_counterexample :
    pollStaleCheck (some (Header.mk 0 "0xW")) (Header.mk 1 "0xP") = true
    ∧ ¬ (2 < 1 - 0) := by
  constructor
  · decide
  · decide

/-- **C7 (amended).** The reconnect trigger of `_pollNow` compares with
uint64 wraparound: with no push header observed it never fires, and
with one observed at number W it fires iff `W < (P + 2^64 - 2) % 2^64`;
whenever the polled number P is at least 2 this coincides with the
claimed `P − W > 2`, but for P < 2 the subtraction underflows and the
trigger fires although the push source is not behind. -/
theorem c7_stale_check_amended (p w : Nat) (hp : p < UINT64_MOD) (hdr hdw : String) :
    pollStaleCheck none (Header.mk p hdr) = false
    ∧ (pollStaleCheck (some (Header.mk w hdw)) (Header.mk p hdr) = true
        ↔ w < (p + UINT64_MOD - 2) % UINT64_MOD)
    ∧ (2 ≤ p → (pollStaleCheck (some (Header.mk w hdw)) (Header.mk p hdr) = true
        ↔ 2 < p - w)) := by
  have hM : UINT64_MOD = 18446744073709551616 := by norm_num [UINT64_MOD]
  refine ⟨rfl, ?_, ?_⟩
  · simp [pollStaleCheck, sub64]
  · intro hp2
    have hsub : sub64 p 2 = p - 2 := by
      unfold sub64
      have h1 : p + UINT64_MOD - 2 = UINT64_MOD + (p - 2) := by omega
      rw [h1, Nat.add_mod_left]
      exact Nat.mod_eq_of_lt (by omega)
    simp only [pollStaleCheck, hsub, decide_eq_true_eq]
    omega

/-- Witness for C7 (amended): polled number 10 with push header at 3 —
a lag of 7 > 2 — fires the trigger. -/
theorem c7_stale_check_amended_witness :
    pollStaleCheck (some (Header.mk 3 "0xW")) (Header.mk 10 "0xP") = true :=
  ((c7_stale_check_amended 10 3 (by norm_num [UINT64_MOD]) "0xP" "0xW").2.2
    (by norm_num)).mpr (by norm_num)

/-- **C8.** The missed wakeup of `startWebsocket`: a caller that enters
while a reconnect is in flight (its swap returns `true`, so it makes no
connection attempt of its own — `attempts` stays 1) but reaches
`Wait()` only after the leader's `Broadcast` is parked in `waiting`
forever: the resulting state is stuck — every further step of every
schedule leaves it unchanged — so the follower never returns, although
the leader's attempt has completed.  (Go's `sync.Cond.Wait` never
returns spuriously, and the flag is not read under the condition
variable's lock, so no later broadcast arrives in this run.) -/
theorem c8_missed_wakeup :
    (wrun (initWsGuard 1) missedWakeupTrace).leader = LeaderPhase.finished
    ∧ (wrun (initWsGuard 1) missedWakeupTrace).attempts = 1
    ∧ (wrun (initWsGuard 1) missedWakeupTrace).followers = [FollowerPC.waiting]
    ∧ (∀ a : WAct, wstep (wrun (initWsGuard 1) missedWakeupTrace) a
        = wrun (initWsGuard 1) missedWakeupTrace)
    ∧ (∀ acts : List WAct, wrun (wrun (initWsGuard 1) missedWakeupTrace) acts
        = wrun (initWsGuard 1) missedWakeupTrace) := by
  have hfinal : wrun (initWsGuard 1) missedWakeupTrace =
      { isConnecting := false, attempts := 1, leader := LeaderPhase.finished,
        followers := [FollowerPC.waiting] } := by rfl
  have hstuck : ∀ a : WAct, wstep (wrun (initWsGuard 1) missedWakeupTrace) a
      = wrun (initWsGuard 1) missedWakeupTrace := by
    intro a
    rw [hfinal]
    cases a with
    | swapF i => cases i with | zero => rfl | succ m => rfl
    | waitF i => cases i with | zero => rfl | succ m => rfl
    | leaderStore => rfl
    | leaderBroadcast => rfl
  refine ⟨by rw [hfinal], by rw [hfinal], by rw [hfinal], hstuck, ?_⟩
  intro acts
  induction acts with
  | nil => rfl
  | cons a rest ih =>
      show wrun (wstep (wrun (initWsGuard 1) missedWakeupTrace) a) rest
        = wrun (initWsGuard 1) missedWakeupTrace
      rw [hstuck a]
      exact ih

/-- Witness for C10: a stopped fresh orchestrator refuses to start even
when every external call would succeed. -/
theorem c10_start_when_stopped_witness :
    ((newBlockSub "http://x" "ws://y").stop).start
        { wsDialOk := true, wsSubOk := true, httpDialOk := true, pollOk := true }
      = ((newBlockSub "http://x" "ws://y").stop, some .errStopped, noStartEffects) :=
  (c10_start_when_stopped ((newBlockSub "http://x" "ws://y").stop)
    { wsDialOk := true, wsSubOk := true, httpDialOk := true, pollOk := true } (by decide)).1

end BlockSubModel
